import Mathlib

/-!
Verification of the `IndexCardRenderer` layout engine
(`backend/index_cards/services.py`) against its design specification.

Physical lengths (points) are modelled as exact rationals `ℚ`; the Python
source computes them with IEEE doubles, but every comparison proved here
holds with slack far larger than double rounding error, except where a
result is stated as exact rational arithmetic.
-/

namespace IndexCards

/-- Points per inch, as in `reportlab.lib.units.inch`. -/
def inch : ℚ := 72

/-- Geometry constants of a card template, one field per class constant of
`IndexCardRenderer`.  The source hardcodes the Avery 5388 preset
(`avery5388` below); the spec quantifies over "valid templates", so the
page-layout computation is stated over these fields. -/
structure Geometry where
  pageWidth : ℚ
  pageHeight : ℚ
  cardWidth : ℚ
  cardHeight : ℚ
  topMargin : ℚ
  bottomMargin : ℚ
  leftMargin : ℚ
  rightMargin : ℚ
  cardGap : ℚ
  cardPadding : ℚ
  imageMaxWidth : ℚ
  imageMaxHeight : ℚ
  qrCodeSize : ℚ
  deriving Repr

/-- The constants of `IndexCardRenderer` (Avery 5388, letter paper). -/
def avery5388 : Geometry :=
  { pageWidth := 612          -- letter
    pageHeight := 792
    cardWidth := 5 * inch
    cardHeight := 3 * inch
    topMargin := 1.0 * inch
    bottomMargin := 1.0 * inch
    leftMargin := 1.75 * inch
    rightMargin := 1.75 * inch
    cardGap := 0.5 * inch
    cardPadding := 0.15 * inch
    imageMaxWidth := 2.0 * inch
    imageMaxHeight := 2.0 * inch
    qrCodeSize := 0.8 * inch }

/-- An axis-aligned rectangle, `(x, y)` its lower-left corner as in the
PDF coordinate system used by the source. -/
structure Rect where
  x : ℚ
  y : ℚ
  w : ℚ
  h : ℚ
  deriving Repr, DecidableEq

/-- A point lies strictly inside a rectangle. -/
def Rect.memInterior (r : Rect) (p : ℚ × ℚ) : Prop :=
  r.x < p.1 ∧ p.1 < r.x + r.w ∧ r.y < p.2 ∧ p.2 < r.y + r.h

/-- A point lies in the closed rectangle. -/
def Rect.memClosed (r : Rect) (p : ℚ × ℚ) : Prop :=
  r.x ≤ p.1 ∧ p.1 ≤ r.x + r.w ∧ r.y ≤ p.2 ∧ p.2 ≤ r.y + r.h

/-- Separation of two rectangles along an axis (decidable form of
non-overlap). -/
def Rect.SeparatedFrom (r s : Rect) : Prop :=
  r.x + r.w ≤ s.x ∨ s.x + s.w ≤ r.x ∨ r.y + r.h ≤ s.y ∨ s.y + s.h ≤ r.y

instance (r s : Rect) : Decidable (r.SeparatedFrom s) := by
  unfold Rect.SeparatedFrom; infer_instance

instance (r : Rect) (p : ℚ × ℚ) : Decidable (r.memClosed p) := by
  unfold Rect.memClosed; infer_instance

theorem Rect.separated_interiors_disjoint {r s : Rect} (hsep : r.SeparatedFrom s) :
    ∀ p : ℚ × ℚ, ¬(r.memInterior p ∧ s.memInterior p) := by
  rintro p ⟨⟨hr1, hr2, hr3, hr4⟩, hs1, hs2, hs3, hs4⟩
  rcases hsep with h | h | h | h <;> linarith

/-- The gap actually used by `_draw_page`: the configured gap, shrunk when
three cards plus two gaps would not fit between the margins. -/
def Geometry.adjustedGap (g : Geometry) : ℚ :=
  let available_height := g.pageHeight - g.topMargin - g.bottomMargin
  let total_cards_height := 3 * g.cardHeight
  let total_gap_height := 2 * g.cardGap
  if total_cards_height + total_gap_height > available_height then
    (available_height - total_cards_height) / 2
  else
    g.cardGap

/-- Card origin `(x, y)` for slot `i` on a page, as computed by
`_draw_page` (three slots stacked top to bottom). -/
def Geometry.cardPosition (g : Geometry) (i : ℕ) : ℚ × ℚ :=
  (g.leftMargin,
   g.pageHeight - g.topMargin - g.cardHeight - i * (g.cardHeight + g.adjustedGap))

/-- Bounding box of the card drawn in slot `i`. -/
def Geometry.cardRect (g : Geometry) (i : ℕ) : Rect :=
  { x := (g.cardPosition i).1
    y := (g.cardPosition i).2
    w := g.cardWidth
    h := g.cardHeight }

/-- The page area inside the margins. -/
def Geometry.innerPage (g : Geometry) : Rect :=
  { x := g.leftMargin
    y := g.bottomMargin
    w := g.pageWidth - g.leftMargin - g.rightMargin
    h := g.pageHeight - g.topMargin - g.bottomMargin }

/-- Validity of a template (the §3 invariant): positive card dimensions,
nonnegative configured gap, three cards fit vertically between the
margins, and one card fits horizontally between the margins. -/
def Geometry.Valid (g : Geometry) : Prop :=
  0 < g.cardWidth ∧ 0 < g.cardHeight ∧ 0 ≤ g.cardGap ∧
    3 * g.cardHeight ≤ g.pageHeight - g.topMargin - g.bottomMargin ∧
    g.leftMargin + g.cardWidth ≤ g.pageWidth - g.rightMargin

instance (g : Geometry) : Decidable g.Valid := by
  unfold Geometry.Valid; infer_instance

theorem Geometry.adjustedGap_nonneg {g : Geometry} (hg : g.Valid) :
    0 ≤ g.adjustedGap := by
  obtain ⟨-, -, hgap, hfit, -⟩ := hg
  unfold Geometry.adjustedGap
  dsimp only
  split <;> [linarith; exact hgap]

theorem Geometry.three_cards_fit {g : Geometry} (hg : g.Valid) :
    3 * g.cardHeight + 2 * g.adjustedGap ≤
      g.pageHeight - g.topMargin - g.bottomMargin := by
  obtain ⟨-, -, hgap, hfit, -⟩ := hg
  unfold Geometry.adjustedGap
  dsimp only
  split
  · linarith
  · next hno => push_neg at hno; linarith

theorem Geometry.cardRect_y_le {g : Geometry} (hg : g.Valid) {i j : ℕ}
    (hij : i < j) :
    (g.cardRect j).y + (g.cardRect j).h ≤ (g.cardRect i).y := by
  have hgap := g.adjustedGap_nonneg hg
  obtain ⟨-, hch, -, -, -⟩ := hg
  simp only [Geometry.cardRect, Geometry.cardPosition]
  have hd : (1 : ℚ) ≤ (j : ℚ) - (i : ℚ) := by
    have : (i : ℚ) + 1 ≤ (j : ℚ) := by exact_mod_cast hij
    linarith
  have hA : (0 : ℚ) ≤ g.cardHeight + g.adjustedGap := by linarith
  have := mul_le_mul_of_nonneg_right hd hA
  nlinarith

/-- C3: for every valid template, the three card slots computed by
`_draw_page` have pairwise disjoint interiors (they are separated along
the vertical axis), and each card bounding box lies inside the page minus
the margins.  Since `_draw_page` draws the page's N ≤ 3 items at the
first N of these slots, this is the non-overlap/containment property for
any N ≤ cardsPerPage items on one page. -/
theorem C3_page_layout_nonoverlap (g : Geometry) (hg : g.Valid) :
    (∀ i j : ℕ, i < 3 → j < 3 → i ≠ j →
      (g.cardRect i).SeparatedFrom (g.cardRect j) ∧
        ∀ p : ℚ × ℚ, ¬((g.cardRect i).memInterior p ∧ (g.cardRect j).memInterior p)) ∧
    (∀ i : ℕ, i < 3 → ∀ p : ℚ × ℚ,
      (g.cardRect i).memClosed p → g.innerPage.memClosed p) := by
  constructor
  · intro i j hi hj hne
    have hsep : (g.cardRect i).SeparatedFrom (g.cardRect j) := by
      rcases lt_or_gt_of_ne hne with h | h
      · exact Or.inr (Or.inr (Or.inr (g.cardRect_y_le hg h)))
      · exact Or.inr (Or.inr (Or.inl (g.cardRect_y_le hg h)))
    exact ⟨hsep, Rect.separated_interiors_disjoint hsep⟩
  · intro i hi p hp
    obtain ⟨hcw, hch, hgap0, hfit, hhor⟩ := hg
    have hgap := g.adjustedGap_nonneg ⟨hcw, hch, hgap0, hfit, hhor⟩
    have hfit3 := g.three_cards_fit ⟨hcw, hch, hgap0, hfit, hhor⟩
    obtain ⟨h1, h2, h3, h4⟩ := hp
    simp only [Geometry.cardRect, Geometry.cardPosition] at h1 h2 h3 h4
    have hi2 : (i : ℚ) ≤ 2 := by
      have : i ≤ 2 := Nat.lt_succ_iff.mp hi
      exact_mod_cast this
    have hi0 : (0 : ℚ) ≤ (i : ℚ) := Nat.cast_nonneg i
    have hA : (0 : ℚ) ≤ g.cardHeight + g.adjustedGap := by linarith
    refine ⟨by simpa [Geometry.innerPage] using h1, ?_, ?_, ?_⟩
    · simp only [Geometry.innerPage]
      linarith
    · simp only [Geometry.innerPage]
      nlinarith
    · simp only [Geometry.innerPage]
      nlinarith

/-- Witness for C3 at the Avery 5388 preset: the template is valid, and
the first two card slots are separated. -/
theorem C3_page_layout_nonoverlap_witness :
    avery5388.Valid ∧
      (avery5388.cardRect 0).SeparatedFrom (avery5388.cardRect 1) :=
  ⟨by norm_num [Geometry.Valid, avery5388, inch],
   ((C3_page_layout_nonoverlap avery5388
     (by norm_num [Geometry.Valid, avery5388, inch])).1 0 1 (by decide)
     (by decide) (by decide)).1⟩

/-! ## Word wrapping (`_wrap_text`) -/

/-- Helper for `pySplit`, accumulating the current word reversed. -/
def pySplitAux : List Char → List Char → List String
  | [], acc => if acc = [] then [] else [String.mk acc.reverse]
  | c :: cs, acc =>
    if c.isWhitespace then
      if acc = [] then pySplitAux cs []
      else String.mk acc.reverse :: pySplitAux cs []
    else pySplitAux cs (c :: acc)

/-- Python `str.split()` with no argument: split on runs of whitespace,
dropping empty pieces. -/
def pySplit (s : String) : List String := pySplitAux s.data []

/-- Loop of `_wrap_text`: `line` is the current line, the list holds the
remaining words; each next word is tentatively appended with a single
space and accepted when the measured candidate still fits. The width
oracle stands for `pdfmetrics.stringWidth(·, font_name, font_size)`. -/
def wrapLoop (width : String → ℚ) (max_width : ℚ) :
    String → List String → List String
  | line, [] => [line]
  | line, next_word :: words =>
    if width (line ++ " " ++ next_word) ≤ max_width then
      wrapLoop width max_width (line ++ " " ++ next_word) words
    else line :: wrapLoop width max_width next_word words

/-- Greedy word wrap `_wrap_text(text, max_width, font_name, font_size)`,
with the font metrics abstracted into the `width` oracle. -/
def wrap_text (width : String → ℚ) (text : String) (max_width : ℚ) :
    List String :=
  match pySplit text with
  | [] => []
  | w :: ws => wrapLoop width max_width w ws

/-- Join a group of words with single spaces, the way `_wrap_text` builds
its lines. -/
def joinWords : List String → String
  | [] => ""
  | [w] => w
  | w :: x :: ws => w ++ " " ++ joinWords (x :: ws)

theorem joinWords_append_single (g : List String) (hg : g ≠ [])
    (w : String) : joinWords (g ++ [w]) = joinWords g ++ " " ++ w := by
  induction g with
  | nil => exact absurd rfl hg
  | cons a t ih =>
    cases t with
    | nil => rfl
    | cons b t2 =>
      have h2 := ih (by simp)
      simp only [List.cons_append] at h2 ⊢
      show a ++ " " ++ joinWords (b :: (t2 ++ [w])) =
        a ++ " " ++ joinWords (b :: t2) ++ " " ++ w
      rw [h2]
      simp [String.append_assoc]

theorem wrapLoop_spec (width : String → ℚ) (max_width : ℚ) :
    ∀ (words : List String) (g : List String), g ≠ [] →
      (width (joinWords g) ≤ max_width ∨ ∃ w, g = [w]) →
      ∃ gss : List (List String),
        wrapLoop width max_width (joinWords g) words = gss.map joinWords ∧
        gss.flatten = g ++ words ∧
        ∀ h ∈ gss, h ≠ [] ∧
          (max_width < width (joinWords h) → ∃ w, h = [w]) := by
  intro words
  induction words with
  | nil =>
    intro g hg hinv
    refine ⟨[g], rfl, by simp, ?_⟩
    rintro h hmem
    simp only [List.mem_singleton] at hmem
    subst hmem
    refine ⟨hg, fun hover => ?_⟩
    rcases hinv with hle | hone
    · exact absurd hover (not_lt.mpr hle)
    · exact hone
  | cons w ws ih =>
    intro g hg hinv
    rw [wrapLoop]
    have hcand : joinWords g ++ " " ++ w = joinWords (g ++ [w]) :=
      (joinWords_append_single g hg w).symm
    by_cases hfit : width (joinWords g ++ " " ++ w) ≤ max_width
    · rw [if_pos hfit, hcand]
      obtain ⟨gss, heq, hflat, hprops⟩ :=
        ih (g ++ [w]) (by simp) (Or.inl (by rw [← hcand]; exact hfit))
      exact ⟨gss, heq, by simp [hflat], hprops⟩
    · rw [if_neg hfit]
      obtain ⟨gss, heq, hflat, hprops⟩ :=
        ih [w] (by simp) (Or.inr ⟨w, rfl⟩)
      have heq2 : wrapLoop width max_width w ws = gss.map joinWords := heq
      refine ⟨g :: gss, ?_, ?_, ?_⟩
      · rw [List.map_cons, heq2]
      · simp [hflat]
      · rintro h hmem
        rcases List.mem_cons.mp hmem with rfl | hmem2
        · refine ⟨hg, fun hover => ?_⟩
          rcases hinv with hle | hone
          · exact absurd hover (not_lt.mpr hle)
          · exact hone
        · exact hprops h hmem2

/-- C4: for every text, maximum width and width oracle (font metrics),
the greedy wrap's output lines are the space-joins of consecutive,
nonempty groups of the input's words — so the words of the output lines,
in order, are exactly the input's words and no word is ever broken — and
every line whose measured width exceeds the maximum is a group of one
word, i.e. a single over-wide word standing alone on its line. -/
theorem C4_wrap_correct (width : String → ℚ) (text : String)
    (max_width : ℚ) :
    ∃ gss : List (List String),
      wrap_text width text max_width = gss.map joinWords ∧
      gss.flatten = pySplit text ∧
      ∀ h ∈ gss, h ≠ [] ∧
        (max_width < width (joinWords h) → ∃ w, h = [w]) := by
  unfold wrap_text
  rcases hsplit : pySplit text with - | ⟨w, ws⟩
  · exact ⟨[], rfl, by simp, by simp⟩
  · obtain ⟨gss, heq, hflat, hprops⟩ :=
      wrapLoop_spec width max_width ws [w] (by simp) (Or.inr ⟨w, rfl⟩)
    have heq2 : wrapLoop width max_width w ws = gss.map joinWords := heq
    exact ⟨gss, heq2, by simpa using hflat, hprops⟩

/-! ## Stats zone (`_draw_info_lines`)

The source tracks a shadow cursor `origin_y` that starts at the text
origin and drops by the highlight style's leading (14) after each emitted
fragment; the guard quantity `card_bottom` is computed once, from that
same *text origin* (`origin_y - CARD_HEIGHT + 2 * CARD_PADDING`), not
from the card's origin.  Emitted fragments are recorded below as
`(fragment, cursor-y)` pairs; the first fragment's real baseline equals
the recorded cursor exactly, and later real baselines sit at or above the
recorded cursor (the text object advances by the text-object leading
`11 * 1.2 = 13.2 ≤ 14` per line). -/

/-- Leading of the `_highlight_style` paragraph style set in `__init__`. -/
def highlightLeading : ℚ := 14

/-- Inner loop over the wrapped fragments of one stat line: each fragment
is emitted at the current cursor, then the cursor drops by `leading`, and
the loop breaks once the cursor has passed `card_bottom + 10`.  Returns
the emitted pairs and the final cursor. -/
def emitFragsLoop (leading card_bottom : ℚ) :
    ℚ → List String → List (String × ℚ) × ℚ
  | y, [] => ([], y)
  | y, f :: fs =>
    if y - leading < card_bottom + 10 then ([(f, y)], y - leading)
    else
      ((f, y) :: (emitFragsLoop leading card_bottom (y - leading) fs).1,
        (emitFragsLoop leading card_bottom (y - leading) fs).2)

/-- Outer loop of `_draw_info_lines` over the stat lines: empty lines are
skipped (`continue`), the loop breaks before a line when one more leading
would cross `card_bottom + 10`, and otherwise the line's wrapped
fragments are emitted by the inner loop. -/
def drawInfoLinesLoop (width : String → ℚ) (leading card_bottom max_width : ℚ) :
    ℚ → List String → List (String × ℚ)
  | _, [] => []
  | y, l :: ls =>
    if l = "" then drawInfoLinesLoop width leading card_bottom max_width y ls
    else if y - leading < card_bottom + 10 then []
    else
      (emitFragsLoop leading card_bottom y (wrap_text width l max_width)).1 ++
        drawInfoLinesLoop width leading card_bottom max_width
          (emitFragsLoop leading card_bottom y (wrap_text width l max_width)).2 ls

/-- The quantity `_draw_info_lines` calls `card_bottom`: computed from
the *text origin* it is handed, not from the card's origin. -/
def infoCardBottom (origin_y : ℚ) : ℚ :=
  origin_y - avery5388.cardHeight + 2 * avery5388.cardPadding

/-- Emitted `(fragment, cursor-y)` pairs of `_draw_info_lines`. -/
def draw_info_lines (width : String → ℚ) (lines : List String)
    (origin_y max_width : ℚ) : List (String × ℚ) :=
  if origin_y < infoCardBottom origin_y + 20 then []
  else
    drawInfoLinesLoop width highlightLeading (infoCardBottom origin_y)
      max_width origin_y lines

/-- Cursor returned by `_draw_title_section`: the card's top inner edge,
minus the title paragraph's wrapped height (reported by the external
paragraph engine) and a fixed 0.3-inch skip. -/
def titleSectionEndY (card_origin_y title_height : ℚ) : ℚ :=
  card_origin_y + avery5388.cardHeight - avery5388.cardPadding -
    title_height - 0.3 * inch

/-- Text origin `_draw_left_section` hands to `_draw_info_lines`. -/
def infoLinesOriginY (card_origin_y title_height : ℚ) : ℚ :=
  titleSectionEndY card_origin_y title_height - 0.1 * inch

theorem emitFragsLoop_y_lower_bound (leading card_bottom : ℚ) :
    ∀ (fs : List String) (y : ℚ), card_bottom + 10 ≤ y →
      ∀ p ∈ (emitFragsLoop leading card_bottom y fs).1, card_bottom + 10 ≤ p.2 := by
  intro fs
  induction fs with
  | nil => intro y hy p hp; simp [emitFragsLoop] at hp
  | cons f fs ih =>
    intro y hy p hp
    rw [emitFragsLoop] at hp
    by_cases hbreak : y - leading < card_bottom + 10
    · rw [if_pos hbreak] at hp
      simp only [List.mem_singleton] at hp
      subst hp; exact hy
    · rw [if_neg hbreak] at hp
      rcases List.mem_cons.mp hp with rfl | hp2
      · exact hy
      · exact ih (y - leading) (not_lt.mp hbreak) p hp2

theorem drawInfoLinesLoop_y_lower_bound (width : String → ℚ)
    (leading card_bottom max_width : ℚ) (hl : 0 ≤ leading) :
    ∀ (ls : List String) (y : ℚ),
      ∀ p ∈ drawInfoLinesLoop width leading card_bottom max_width y ls,
        card_bottom + 10 ≤ p.2 := by
  intro ls
  induction ls with
  | nil => intro y p hp; simp [drawInfoLinesLoop] at hp
  | cons l ls ih =>
    intro y p hp
    rw [drawInfoLinesLoop] at hp
    by_cases hempty : l = ""
    · rw [if_pos hempty] at hp; exact ih y p hp
    · rw [if_neg hempty] at hp
      by_cases hbreak : y - leading < card_bottom + 10
      · rw [if_pos hbreak] at hp; simp at hp
      · rw [if_neg hbreak] at hp
        rcases List.mem_append.mp hp with hp1 | hp2
        · exact emitFragsLoop_y_lower_bound leading card_bottom _ y
            (by linarith [not_lt.mp hbreak]) p hp1
        · exact ih _ p hp2

/-- The clamp `_draw_info_lines` actually enforces: no fragment's cursor
falls below its own pseudo-boundary `origin_y - CARD_HEIGHT +
2 * CARD_PADDING`, plus ten points. -/
theorem draw_info_lines_own_bound (width : String → ℚ) (lines : List String)
    (origin_y max_width : ℚ) :
    ∀ p ∈ draw_info_lines width lines origin_y max_width,
      infoCardBottom origin_y + 10 ≤ p.2 := by
  intro p hp
  unfold draw_info_lines at hp
  split at hp
  · simp at hp
  · exact drawInfoLinesLoop_y_lower_bound width highlightLeading
      (infoCardBottom origin_y) max_width (by norm_num [highlightLeading])
      lines origin_y p hp

/-- C5: the claimed clamp against the card's inner padding boundary does
not hold.  `_draw_info_lines` computes its `card_bottom` from the text
origin it receives, not from the card origin; at the real call site the
text origin sits below the card's top edge by the title height plus fixed
skips, so the enforced pseudo-boundary lies below the card's actual inner
padding boundary.  Concretely: for a card at origin y = 0 whose title
paragraph wraps to height 180 (ten lines of a very long name at leading
18), the single stat line "Target: 5 units" is emitted at cursor
y = −3.6, below the card's inner padding boundary 10.8 — and below the
card's outer bottom edge 0 as well. -/
theorem C5_stats_zone_clamp_bug :
    draw_info_lines (fun _ => 0) ["Target: 5 units"]
        (infoLinesOriginY 0 180)
        (avery5388.cardWidth * 0.6 - 0.1 * inch) =
      [("Target: 5 units", infoLinesOriginY 0 180)] ∧
    infoLinesOriginY 0 180 < 0 + avery5388.cardPadding := by
  have hy0 : infoLinesOriginY 0 180 = -3.6 := by
    norm_num [infoLinesOriginY, titleSectionEndY, avery5388, inch]
  have hsplit : pySplit "Target: 5 units" = ["Target:", "5", "units"] := by
    decide
  have hwrap : wrap_text (fun _ => (0 : ℚ)) "Target: 5 units"
      (avery5388.cardWidth * 0.6 - 0.1 * inch) = ["Target: 5 units"] := by
    unfold wrap_text
    rw [hsplit]
    show wrapLoop (fun _ => (0 : ℚ)) (avery5388.cardWidth * 0.6 - 0.1 * inch)
      "Target:" ["5", "units"] = ["Target: 5 units"]
    rw [wrapLoop, if_pos (by norm_num [avery5388, inch])]
    rw [wrapLoop, if_pos (by norm_num [avery5388, inch])]
    decide
  constructor
  · unfold draw_info_lines
    rw [hy0]
    rw [if_neg (by norm_num [infoCardBottom, avery5388, inch])]
    rw [drawInfoLinesLoop,
      if_neg (by decide : ¬("Target: 5 units" = "")),
      if_neg (by norm_num [infoCardBottom, avery5388, inch, highlightLeading])]
    rw [hwrap]
    rw [emitFragsLoop,
      if_neg (by norm_num [infoCardBottom, avery5388, inch, highlightLeading])]
    simp [emitFragsLoop, drawInfoLinesLoop]
  · rw [hy0]
    norm_num [avery5388, inch]

/-! ## Pluralization (`_pluralize`) -/

/-- Python `word.endswith(suf)`. -/
def pyEndsWith (word suf : String) : Bool := suf.data.isSuffixOf word.data

/-- Literal translation of `_pluralize(count, word)`: `word[-2]` is the
character at index `len - 2` (guarded by `len(word) > 1`), `word[:-1]`
drops the final character. -/
def pluralize (count : ℤ) (word : String) : String :=
  if count = 1 then toString count ++ " " ++ word
  else
    if pyEndsWith word "y" ∧ 1 < word.data.length ∧
        word.data.getD (word.data.length - 2) ' ' ∉ "aeiou".data then
      toString count ++ " " ++ (String.mk word.data.dropLast ++ "ies")
    else if pyEndsWith word "y" then
      toString count ++ " " ++ (word ++ "s")
    else if pyEndsWith word "s" ∨ pyEndsWith word "sh" ∨ pyEndsWith word "ch" ∨
        pyEndsWith word "x" ∨ pyEndsWith word "z" then
      toString count ++ " " ++ (word ++ "es")
    else
      toString count ++ " " ++ (word ++ "s")

/-- C9: the pluralization helper.  A count of one yields "{count} {word}";
otherwise the suffix rules apply in the stated priority: consonant+y
gives "ies" on the stem, vowel+y gives "ys", an ending of s, sh, ch, x or
z appends "es", and any other word appends "s".  The four end-to-end
examples evaluate as specified.  (Purity is inherent: `pluralize` is a
function of its two arguments only.) -/
theorem C9_pluralize_rules :
    (∀ w : String, pluralize 1 w = "1 " ++ w) ∧
    (∀ (n : ℤ) (w : String), n ≠ 1 → pyEndsWith w "y" →
      1 < w.data.length → w.data.getD (w.data.length - 2) ' ' ∉ "aeiou".data →
      pluralize n w = toString n ++ " " ++ (String.mk w.data.dropLast ++ "ies")) ∧
    (∀ (n : ℤ) (w : String), n ≠ 1 → pyEndsWith w "y" →
      1 < w.data.length → w.data.getD (w.data.length - 2) ' ' ∈ "aeiou".data →
      pluralize n w = toString n ++ " " ++ (w ++ "s")) ∧
    (∀ (n : ℤ) (w : String), n ≠ 1 → ¬(pyEndsWith w "y" : Bool) →
      (pyEndsWith w "s" ∨ pyEndsWith w "sh" ∨ pyEndsWith w "ch" ∨
        pyEndsWith w "x" ∨ pyEndsWith w "z") →
      pluralize n w = toString n ++ " " ++ (w ++ "es")) ∧
    (∀ (n : ℤ) (w : String), n ≠ 1 → ¬(pyEndsWith w "y" : Bool) →
      ¬(pyEndsWith w "s" ∨ pyEndsWith w "sh" ∨ pyEndsWith w "ch" ∨
        pyEndsWith w "x" ∨ pyEndsWith w "z") →
      pluralize n w = toString n ++ " " ++ (w ++ "s")) ∧
    pluralize 1 "unit" = "1 unit" ∧ pluralize 2 "unit" = "2 units" ∧
    pluralize 2 "company" = "2 companies" ∧ pluralize 2 "day" = "2 days" := by
  refine ⟨?_, ?_, ?_, ?_, ?_, by decide, by decide, by decide, by decide⟩
  · intro w
    unfold pluralize
    rw [if_pos rfl, show (toString (1 : ℤ) ++ " ") = "1 " by decide]
  · intro n w hn hy hlen hvow
    unfold pluralize
    rw [if_neg hn, if_pos ⟨hy, hlen, hvow⟩]
  · intro n w hn hy hlen hvow
    unfold pluralize
    rw [if_neg hn, if_neg (by rintro ⟨-, -, hno⟩; exact hno hvow), if_pos hy]
  · intro n w hn hy hsuf
    unfold pluralize
    rw [if_neg hn, if_neg (by rintro ⟨h1, -, -⟩; exact hy h1),
      if_neg (by exact fun h => hy h), if_pos hsuf]
  · intro n w hn hy hsuf
    unfold pluralize
    rw [if_neg hn, if_neg (by rintro ⟨h1, -, -⟩; exact hy h1),
      if_neg (by exact fun h => hy h), if_neg hsuf]

/-- Witness for C9: the consonant+y rule applied through the theorem at a
concrete input. -/
theorem C9_pluralize_rules_witness : pluralize 3 "factory" = "3 factories" :=
  C9_pluralize_rules.2.1 3 "factory" (by decide) (by decide) (by decide)
    (by decide)

/-! ## Contrast rule (`_get_contrast_text_color`) -/

/-- Text color returned by the contrast rule. -/
inductive TextColor where
  | black
  | white
  deriving DecidableEq, Repr

/-- Python `str.strip()` (whitespace modelled as space, tab, CR, LF). -/
def pyStrip (s : String) : String :=
  String.mk
    (((s.data.dropWhile Char.isWhitespace).reverse.dropWhile
      Char.isWhitespace).reverse)

/-- Python `str.lstrip("#")`: drop every leading `#`. -/
def pyLstripHash (s : String) : String :=
  String.mk (s.data.dropWhile (fun c => c = '#'))

/-- Value of one hexadecimal digit character. -/
def hexDigitVal : Char → Option ℤ
  | c =>
    if '0' ≤ c ∧ c ≤ '9' then some (c.toNat - '0'.toNat : ℤ)
    else if 'a' ≤ c ∧ c ≤ 'f' then some (c.toNat - 'a'.toNat + 10 : ℤ)
    else if 'A' ≤ c ∧ c ≤ 'F' then some (c.toNat - 'A'.toNat + 10 : ℤ)
    else none

/-- Python `int(s, 16)` on a two-character string: besides two hex
digits, Python accepts a leading or trailing whitespace character and a
leading sign around a single digit (e.g. `int(" f", 16) = 15`,
`int("-f", 16) = -15`); everything else raises, modelled as `none`.
(Non-ASCII digits accepted by Python are not modelled.) -/
def pyIntHex2 (a b : Char) : Option ℤ :=
  match hexDigitVal a, hexDigitVal b with
  | some x, some y => some (16 * x + y)
  | some x, none => if b.isWhitespace then some x else none
  | none, some y =>
    if a.isWhitespace ∨ a = '+' then some y
    else if a = '-' then some (-y) else none
  | none, none => none

/-- Luminance formula from `_get_contrast_text_color`, in exact rational
arithmetic. -/
def luminance (r g b : ℤ) : ℚ := (0.299 * r + 0.587 * g + 0.114 * b) / 255

/-- Core of `_get_contrast_text_color` on the cleaned character list:
six characters are sliced into three pairs, each parsed with Python
`int(·, 16)`; a failed parse (the `ValueError` path) and a wrong length
both fall back to white. -/
def contrastCore : List Char → TextColor
  | [c0, c1, c2, c3, c4, c5] =>
    match pyIntHex2 c0 c1, pyIntHex2 c2 c3, pyIntHex2 c4 c5 with
    | some r, some g, some b =>
      if luminance r g b > 0.5 then .black else .white
    | _, _, _ => .white
  | _ => .white

/-- Model of `_get_contrast_text_color(hex_color)`. -/
def get_contrast_text_color (hex_color : String) : TextColor :=
  contrastCore (pyLstripHash (pyStrip hex_color)).data

theorem contrastCore_eq_black_iff (l : List Char) :
    contrastCore l = .black ↔
      ∃ (c0 c1 c2 c3 c4 c5 : Char) (r g b : ℤ),
        l = [c0, c1, c2, c3, c4, c5] ∧
        pyIntHex2 c0 c1 = some r ∧ pyIntHex2 c2 c3 = some g ∧
        pyIntHex2 c4 c5 = some b ∧ luminance r g b > 0.5 := by
  unfold contrastCore
  split
  · rename_i c0 c1 c2 c3 c4 c5
    split
    · rename_i r g b h1 h2 h3
      by_cases hlum : luminance r g b > 0.5
      · rw [if_pos hlum]
        simp only [true_iff]
        exact ⟨c0, c1, c2, c3, c4, c5, r, g, b, rfl, h1, h2, h3, hlum⟩
      · rw [if_neg hlum]
        constructor
        · intro h; cases h
        · rintro ⟨d0, d1, d2, d3, d4, d5, r', g', b', heq, h1', h2', h3', hlum'⟩
          simp only [List.cons.injEq, and_true] at heq
          obtain ⟨rfl, rfl, rfl, rfl, rfl, rfl⟩ := heq
          rw [h1] at h1'; rw [h2] at h2'; rw [h3] at h3'
          injection h1' with hr; injection h2' with hg; injection h3' with hb
          subst hr; subst hg; subst hb
          exact absurd hlum' hlum
    · rename_i hnone
      constructor
      · intro h; cases h
      · rintro ⟨d0, d1, d2, d3, d4, d5, r', g', b', heq, h1', h2', h3', -⟩
        simp only [List.cons.injEq, and_true] at heq
        obtain ⟨rfl, rfl, rfl, rfl, rfl, rfl⟩ := heq
        exact (hnone r' g' b' h1' h2' h3').elim
  · rename_i hshape
    constructor
    · intro h; cases h
    · rintro ⟨d0, d1, d2, d3, d4, d5, r', g', b', heq, -, -, -, -⟩
      exact (hshape d0 d1 d2 d3 d4 d5 heq).elim

/-- C8 (amended): the contrast rule never raises (its result is always
black or white), and it returns BLACK exactly when the input, stripped of
surrounding whitespace and of leading `#` characters, is six characters
long, each of its three two-character slices parses under Python
`int(·, 16)` — which, besides pairs of hex digits, also accepts a single
digit with a leading sign or a surrounding whitespace character — and the
luminance `(0.299 R + 0.587 G + 0.114 B) / 255` of the parsed channels
exceeds 0.5; every input rejected by that parse (wrong length, or a
slice `int` cannot parse) yields WHITE. -/
theorem C8_contrast_rule (s : String) :
    (get_contrast_text_color s = .black ∨ get_contrast_text_color s = .white) ∧
    (get_contrast_text_color s = .black ↔
      ∃ (c0 c1 c2 c3 c4 c5 : Char) (r g b : ℤ),
        (pyLstripHash (pyStrip s)).data = [c0, c1, c2, c3, c4, c5] ∧
        pyIntHex2 c0 c1 = some r ∧ pyIntHex2 c2 c3 = some g ∧
        pyIntHex2 c4 c5 = some b ∧ luminance r g b > 0.5) := by
  constructor
  · unfold get_contrast_text_color contrastCore
    split
    · split
      · split <;> simp
      · simp
    · simp
  · exact contrastCore_eq_black_iff _

/-- C8 counterexample to the claim as stated: the six-character string
"ffff f" contains a character that is not a hex digit (the space), yet
the code returns BLACK for it rather than the white malformed-input
default, because Python `int(" f", 16)` parses the space-padded slice to
15 and the luminance of (255, 255, 15) exceeds 0.5. -/
theorem C8_contrast_default_counterexample :
    get_contrast_text_color "ffff f" = .black ∧
      ' ' ∈ (pyLstripHash (pyStrip "ffff f")).data ∧ hexDigitVal ' ' = none := by
  refine ⟨?_, by decide, by decide⟩
  exact (contrastCore_eq_black_iff _).mpr
    ⟨'f', 'f', 'f', 'f', ' ', 'f', 255, 255, 15, by decide, by decide,
      by decide, by decide, by norm_num [luminance]⟩

/-! ## Photo zone (`_draw_product_image`) -/

/-- Rectangle actually drawn by `_draw_product_image`, given the zone
inputs and the photo's intrinsic size, or `none` when the guard
`available_image_space > 0` fails and nothing is drawn. -/
def draw_product_image (left_section_x left_section_width image_y_start
    inner_y image_width image_height : ℚ) : Option Rect :=
  if image_y_start - inner_y - 0.3 * inch > 0 then
    some
      { x := left_section_x + (left_section_width -
          image_width * min ((left_section_width - 0.2 * inch) / image_width)
            (min ((image_y_start - inner_y - 0.3 * inch) / image_height) 1)) / 2
        y := image_y_start - image_height *
          min ((left_section_width - 0.2 * inch) / image_width)
            (min ((image_y_start - inner_y - 0.3 * inch) / image_height) 1)
        w := image_width * min ((left_section_width - 0.2 * inch) / image_width)
          (min ((image_y_start - inner_y - 0.3 * inch) / image_height) 1)
        h := image_height * min ((left_section_width - 0.2 * inch) / image_width)
          (min ((image_y_start - inner_y - 0.3 * inch) / image_height) 1) }
  else none

/-- C6 (amended): when the photo zone has positive vertical space, the
drawn rectangle uses `scale = min(maxW/imgW, maxH/imgH, 1)`: aspect ratio
is preserved exactly, neither dimension exceeds its zone maximum, the
image is never upscaled past native size, an image already fitting both
bounds is drawn at native size, and the image is centered *horizontally*
in its section while being top-aligned (not vertically centered). -/
theorem C6_image_scale_ceiling
    (left_section_x left_section_width image_y_start inner_y
      image_width image_height : ℚ)
    (hw : 0 < image_width) (hh : 0 < image_height)
    (hspace : 0 < image_y_start - inner_y - 0.3 * inch) :
    ∃ r : Rect,
      draw_product_image left_section_x left_section_width image_y_start
          inner_y image_width image_height = some r ∧
      r.w * image_height = r.h * image_width ∧
      r.w ≤ image_width ∧ r.h ≤ image_height ∧
      r.w ≤ left_section_width - 0.2 * inch ∧
      r.h ≤ image_y_start - inner_y - 0.3 * inch ∧
      (image_width ≤ left_section_width - 0.2 * inch →
        image_height ≤ image_y_start - inner_y - 0.3 * inch →
        r.w = image_width ∧ r.h = image_height) ∧
      r.x - left_section_x = left_section_x + left_section_width - (r.x + r.w) ∧
      r.y + r.h = image_y_start := by
  set maxW := left_section_width - 0.2 * inch with hmaxW
  set maxH := image_y_start - inner_y - 0.3 * inch with hmaxH
  set s := min (maxW / image_width) (min (maxH / image_height) 1) with hs
  have hs1 : s ≤ 1 := le_trans (min_le_right _ _) (min_le_right _ _)
  have hsA : s ≤ maxW / image_width := min_le_left _ _
  have hsB : s ≤ maxH / image_height :=
    le_trans (min_le_right _ _) (min_le_left _ _)
  refine ⟨_, by rw [draw_product_image, if_pos hspace], ?_, ?_, ?_, ?_, ?_, ?_, ?_, ?_⟩
  · ring
  · simpa using mul_le_of_le_one_right hw.le hs1
  · simpa using mul_le_of_le_one_right hh.le hs1
  · have := mul_le_mul_of_nonneg_left hsA hw.le
    calc image_width * s ≤ image_width * (maxW / image_width) := this
    _ = maxW := by field_simp
  · have := mul_le_mul_of_nonneg_left hsB hh.le
    calc image_height * s ≤ image_height * (maxH / image_height) := this
    _ = maxH := by field_simp
  · intro hfitW hfitH
    have hA1 : (1 : ℚ) ≤ maxW / image_width := (one_le_div hw).mpr hfitW
    have hB1 : (1 : ℚ) ≤ maxH / image_height := (one_le_div hh).mpr hfitH
    have hseq : s = 1 := by rw [hs, min_eq_right hB1, min_eq_right hA1]
    constructor
    · show image_width * s = image_width
      rw [hseq, mul_one]
    · show image_height * s = image_height
      rw [hseq, mul_one]
  · ring
  · ring

/-- C6 counterexample to full centering: a 10×10 photo in a zone with
78.4 points of vertical space is drawn top-aligned (its top edge at
`image_y_start`), leaving a zero gap above and a 68.4-point gap below —
not vertically centered within its zone. -/
theorem C6_not_vertically_centered :
    draw_product_image 0 216 100 0 10 10 =
      some { x := 103, y := 90, w := 10, h := 10 } ∧
    (100 : ℚ) - (90 + 10) ≠ 90 - (0 + 0.3 * inch) := by
  constructor
  · rw [draw_product_image, if_pos (by norm_num [inch])]
    rw [min_eq_right (by norm_num [inch] :
        (1 : ℚ) ≤ ((100 : ℚ) - 0 - 0.3 * inch) / 10),
      min_eq_right (by norm_num [inch] :
        (1 : ℚ) ≤ ((216 : ℚ) - 0.2 * inch) / 10)]
    simp only [Option.some.injEq, Rect.mk.injEq]
    norm_num
  · norm_num [inch]

/-- Witness for C6 applied at a concrete small photo. -/
theorem C6_image_scale_ceiling_witness :
    ∃ r : Rect,
      draw_product_image 0 216 100 0 10 10 = some r ∧
      r.w * 10 = r.h * 10 ∧ r.w ≤ 10 ∧ r.h ≤ 10 ∧
      r.w ≤ 216 - 0.2 * inch ∧ r.h ≤ 100 - 0 - 0.3 * inch ∧
      ((10 : ℚ) ≤ 216 - 0.2 * inch → (10 : ℚ) ≤ 100 - 0 - 0.3 * inch →
        r.w = 10 ∧ r.h = 10) ∧
      r.x - 0 = 0 + 216 - (r.x + r.w) ∧ r.y + r.h = 100 :=
  C6_image_scale_ceiling 0 216 100 0 10 10 (by norm_num) (by norm_num)
    (by norm_num [inch])

/-! ## Page packing (`_chunk` and `_render_to_canvas`) -/

/-- Translation of `_chunk(sequence, size)`: Python
`for index in range(0, len(sequence), size): yield sequence[index:index+size]`;
`range(0, n, size)` has `(n + size - 1) / size` elements for positive
`size`. -/
def chunk {α : Type} (sequence : List α) (size : ℕ) : List (List α) :=
  (List.range' 0 ((sequence.length + size - 1) / size) size).map
    (fun index => (sequence.drop index).take size)

theorem chunk_nil {α : Type} (size : ℕ) : chunk ([] : List α) size = [] := by
  unfold chunk
  have : ((List.nil (α := α)).length + size - 1) / size = 0 := by
    rcases Nat.eq_zero_or_pos size with h | h
    · simp [h]
    · simp only [List.length_nil, Nat.zero_add]
      exact Nat.div_eq_of_lt (by omega)
  rw [this]
  rfl

theorem chunk_cons {α : Type} (l : List α) (size : ℕ) (hl : l ≠ [])
    (hs : 0 < size) :
    chunk l size = l.take size :: chunk (l.drop size) size := by
  unfold chunk
  have hlen : 1 ≤ l.length := List.length_pos.mpr hl
  have hk : (l.length + size - 1) / size =
      ((l.drop size).length + size - 1) / size + 1 := by
    rw [List.length_drop]
    rcases le_or_lt l.length size with h | h
    · have h0 : l.length - size = 0 := by omega
      rw [h0, show 0 + size - 1 = size - 1 by omega,
        Nat.div_eq_of_lt (by omega : size - 1 < size),
        Nat.div_eq_of_lt_le (by omega : 1 * size ≤ l.length + size - 1)
          (by omega : l.length + size - 1 < (1 + 1) * size)]
    · have hx : l.length + size - 1 = ((l.length - size) + size - 1) + size := by
        omega
      rw [hx, Nat.add_div_right _ hs]
  rw [hk, List.range'_succ, List.map_cons]
  simp only [List.drop_zero]
  congr 1
  rw [show 0 + size = size + 0 from by omega,
    ← List.map_add_range' size 0 _ size, List.map_map]
  refine List.map_congr_left ?_
  intro i _
  show (l.drop (size + i)).take size = ((l.drop size).drop i).take size
  rw [List.drop_drop]

theorem chunk_flatten_le {α : Type} (size : ℕ) (hs : 0 < size) :
    ∀ (n : ℕ) (l : List α), l.length ≤ n → (chunk l size).flatten = l := by
  intro n
  induction n with
  | zero =>
    intro l hl
    have : l = [] := List.length_eq_zero.mp (Nat.le_zero.mp hl)
    subst this
    rw [chunk_nil]
    rfl
  | succ n ih =>
    intro l hl
    by_cases h : l = []
    · subst h; rw [chunk_nil]; rfl
    · rw [chunk_cons l size h hs, List.flatten_cons,
        ih (l.drop size) (by
          rw [List.length_drop]
          have := List.length_pos.mpr h
          omega)]
      exact List.take_append_drop size l

/-- The chunks of `_chunk` concatenate back to the input in order. -/
theorem chunk_flatten {α : Type} (size : ℕ) (hs : 0 < size) (l : List α) :
    (chunk l size).flatten = l :=
  chunk_flatten_le size hs l.length l le_rfl

theorem chunk_mem_le {α : Type} (size : ℕ) (hs : 0 < size) :
    ∀ (n : ℕ) (l : List α), l.length ≤ n →
      ∀ c ∈ chunk l size, c ≠ [] ∧ c.length ≤ size := by
  intro n
  induction n with
  | zero =>
    intro l hl c hc
    have : l = [] := List.length_eq_zero.mp (Nat.le_zero.mp hl)
    subst this
    rw [chunk_nil] at hc
    cases hc
  | succ n ih =>
    intro l hl c hc
    by_cases h : l = []
    · subst h; rw [chunk_nil] at hc; cases hc
    · rw [chunk_cons l size h hs] at hc
      rcases List.mem_cons.mp hc with rfl | hc2
      · constructor
        · have hp := List.length_pos.mpr h
          have : (l.take size).length = min size l.length := List.length_take ..
          intro hnil
          rw [hnil] at this
          simp at this
          omega
        · rw [List.length_take]; omega
      · exact ih (l.drop size) (by
          rw [List.length_drop]
          have := List.length_pos.mpr h
          omega) c hc2

theorem chunk_dropLast_le {α : Type} (size : ℕ) (hs : 0 < size) :
    ∀ (n : ℕ) (l : List α), l.length ≤ n →
      ∀ c ∈ (chunk l size).dropLast, c.length = size := by
  intro n
  induction n with
  | zero =>
    intro l hl c hc
    have : l = [] := List.length_eq_zero.mp (Nat.le_zero.mp hl)
    subst this
    rw [chunk_nil] at hc
    cases hc
  | succ n ih =>
    intro l hl c hc
    by_cases h : l = []
    · subst h; rw [chunk_nil] at hc; cases hc
    · rw [chunk_cons l size h hs] at hc
      by_cases hrest : chunk (l.drop size) size = []
      · rw [hrest] at hc
        cases hc
      · rw [List.dropLast_cons_of_ne_nil hrest] at hc
        rcases List.mem_cons.mp hc with rfl | hc2
        · -- the head chunk is followed by more chunks, so the list had
          -- more than `size` elements and `take size` is full
          have hd : l.drop size ≠ [] := by
            intro hdrop
            rw [hdrop, chunk_nil] at hrest
            exact hrest rfl
          have : size < l.length := by
            have := List.length_pos.mpr hd
            rw [List.length_drop] at this
            omega
          rw [List.length_take]
          omega
        · exact ih (l.drop size) (by
            rw [List.length_drop]
            have := List.length_pos.mpr h
            omega) c hc2

/-- Fullness: every chunk except possibly the last has exactly `size`
elements. -/
theorem chunk_dropLast_full {α : Type} (size : ℕ) (hs : 0 < size)
    (l : List α) : ∀ c ∈ (chunk l size).dropLast, c.length = size :=
  chunk_dropLast_le size hs l.length l le_rfl

/-! ## Renderer pipeline

Model of `IndexCardRenderer` as a whole: the mutable instance state is
`RendererState` (URL plus the `blank_cards` flag reassigned by the public
entry points), the deterministic external collaborators (paragraph
engine, font metrics, hex-color parser acceptance) are bundled in
`Collaborators`, and rendering produces pages of `DrawCmd` values in the
order the source issues its canvas calls.  Byte production
(`canvas.save`), file storage and filename timestamps lie beyond the
draw-command boundary and are not modelled. -/

/-- Category relation of an item (name plus hex color string; Django
`CharField`s are empty strings when blank). -/
structure Category where
  name : String
  color : String
  deriving Repr, DecidableEq

/-- A product photo whose file exists on disk, with intrinsic pixel
size as reported by `ImageReader.getSize()`. -/
structure PhotoFile where
  path : String
  width : ℚ
  height : ℚ
  deriving Repr, DecidableEq

/-- The item fields the renderer reads. -/
structure InventoryItem where
  id : ℕ
  name : String
  reorder_quantity : ℤ
  minimum_stock : ℤ
  average_lead_time : Option ℤ
  category : Option Category
  image : Option PhotoFile
  deriving Repr, DecidableEq

/-- Instance state of `IndexCardRenderer`: the two attributes assigned in
`__init__` that rendering reads (the fixed paragraph styles are
constants). -/
structure RendererState where
  base_url : String
  blank_cards : Bool
  deriving Repr, DecidableEq

/-- The constructor `IndexCardRenderer(base_url, blank_cards)` (URL
defaulting is resolved by the settings collaborator outside the model). -/
def init (base_url : String) (blank_cards : Bool := false) : RendererState :=
  { base_url := base_url, blank_cards := blank_cards }

/-- Deterministic external collaborators. -/
structure Collaborators where
  /-- Height reported by `Paragraph.wrap` for the title text. -/
  titleHeight : String → ℚ
  /-- `pdfmetrics.stringWidth(·, "Helvetica-Bold", 11)`. -/
  textWidth : String → ℚ
  /-- Whether `reportlab.lib.colors.HexColor` accepts the string. -/
  hexColorOk : String → Bool

/-- A fill/stroke color as the model distinguishes them. -/
inductive ColorV where
  | black
  | white
  | gray
  | hex (s : String)
  deriving Repr, DecidableEq

/-- One drawing primitive issued to the canvas. -/
inductive DrawCmd where
  | roundRect (x y w h radius : ℚ) (stroke fill : ℕ) (bg : Option ColorV)
  | frameRect (x y w h : ℚ) (c : ColorV)
  | imageCmd (payload : String) (x y w h : ℚ)
  | paragraphCmd (text : String) (x y : ℚ)
  | textCmd (text : String) (x y : ℚ)
  | centredText (text : String) (x y : ℚ) (c : ColorV)
  | categoryText (text : String) (x y : ℚ) (c : ColorV)
  deriving Repr, DecidableEq

/-- Python `str.rstrip("/")`. -/
def pyRstripSlash (s : String) : String :=
  String.mk ((s.data.reverse.dropWhile (fun c => c = '/')).reverse)

/-- `_build_reorder_url`. -/
def build_reorder_url (base_url : String) (item : InventoryItem) : String :=
  pyRstripSlash base_url ++ "/scan/" ++ toString item.id

/-- `_calculate_desired_stock`. -/
def calculate_desired_stock (item : InventoryItem) : ℤ :=
  max (item.minimum_stock + item.reorder_quantity) item.reorder_quantity

/-- The two lines of `CALL_TO_ACTION.split("\n")`. -/
def ctaLines : List String :=
  ["Scan to notify Logistics", "it's time to reorder me!"]

/-- Truthy category color: `item.category and item.category.color`. -/
def categoryColorRaw (item : InventoryItem) : String :=
  match item.category with
  | some c => if c.color ≠ "" then c.color else "#2563eb"
  | none => "#2563eb"

/-- `_draw_blank_card`: only the centered QR code. -/
def draw_blank_card (base_url : String) (item : InventoryItem)
    (origin_x origin_y : ℚ) : List DrawCmd :=
  [.imageCmd (build_reorder_url base_url item)
    (origin_x + (avery5388.cardWidth - avery5388.qrCodeSize) / 2)
    (origin_y + (avery5388.cardHeight - avery5388.qrCodeSize) / 2)
    avery5388.qrCodeSize avery5388.qrCodeSize]

/-- Box geometry returned by `_calculate_cta_dimensions`. -/
structure CtaBox where
  y : ℚ
  width : ℚ
  height : ℚ
  line_height : ℚ
  padding : ℚ
  deriving Repr, DecidableEq

/-- `_calculate_cta_dimensions` (the returned `qr_x` placeholder is
recomputed by the drawing method and omitted). -/
def calculate_cta_dimensions (hasCategory : Bool)
    (right_section_width current_y inner_y : ℚ) : ℚ × CtaBox :=
  let line_height : ℚ := 10
  let padding_vertical : ℚ := 3
  let box_height := 2 * line_height + 2 * padding_vertical
  let box_width := right_section_width - 0.2 * inch
  let category_space := if hasCategory then 0.25 * inch else 0.1 * inch
  let total_right_height := current_y - inner_y - category_space
  let qr_and_cta_height := avery5388.qrCodeSize + 0.1 * inch + box_height
  let qr_y_adjusted :=
    if qr_and_cta_height ≤ total_right_height then
      current_y - avery5388.qrCodeSize
    else current_y - avery5388.qrCodeSize + 0.05 * inch
  let box_y :=
    if qr_and_cta_height ≤ total_right_height then
      qr_y_adjusted - 0.1 * inch - box_height
    else qr_y_adjusted - 0.05 * inch - box_height
  let min_box_y := inner_y + category_space
  if box_y < min_box_y then
    if min_box_y + box_height > qr_y_adjusted - 0.02 * inch then
      (qr_y_adjusted,
        { y := min_box_y, width := box_width, height := 2 * 8 + 2 * padding_vertical
          line_height := 8, padding := padding_vertical })
    else
      (qr_y_adjusted,
        { y := min_box_y, width := box_width, height := box_height
          line_height := line_height, padding := padding_vertical })
  else
    (qr_y_adjusted,
      { y := box_y, width := box_width, height := box_height
        line_height := line_height, padding := padding_vertical })

/-- `_draw_qr_code_with_frame`: optional category-colored frame (only
when the contrast rule judges the color light, the category is present
with a truthy color, and `HexColor` accepts it), then the QR image. -/
def draw_qr_code_with_frame (collab : Collaborators) (base_url : String)
    (item : InventoryItem) (right_section_x right_section_width qr_y : ℚ) :
    List DrawCmd :=
  let qr_x := right_section_x + (right_section_width - avery5388.qrCodeSize) / 2
  let category_color := categoryColorRaw item
  let is_light := get_contrast_text_color category_color = .black
  let hasColor : Bool :=
    match item.category with
    | some c => c.color ≠ ""
    | none => false
  let frame : List DrawCmd :=
    if is_light ∧ hasColor then
      if collab.hexColorOk (pyStrip category_color) then
        [.frameRect (qr_x - 0.05 * inch) (qr_y - 0.05 * inch)
          (avery5388.qrCodeSize + 2 * (0.05 * inch))
          (avery5388.qrCodeSize + 2 * (0.05 * inch))
          (.hex (pyStrip category_color))]
      else []
    else []
  frame ++ [.imageCmd (build_reorder_url base_url item) qr_x qr_y
    avery5388.qrCodeSize avery5388.qrCodeSize]

/-- Color of the contrast rule as a canvas color. -/
def contrastColorV (s : String) : ColorV :=
  match get_contrast_text_color s with
  | .black => .black
  | .white => .white

/-- `_draw_cta_box`: filled rounded rectangle plus the two centered CTA
text lines stepped down by the box's line height. -/
def draw_cta_box (collab : Collaborators) (item : InventoryItem)
    (right_section_x right_section_width : ℚ) (cta_box : CtaBox) :
    List DrawCmd :=
  let bg : ColorV :=
    match item.category with
    | some c =>
      if c.color ≠ "" ∧ pyStrip c.color ≠ "" then
        if collab.hexColorOk (pyStrip c.color) then .hex (pyStrip c.color)
        else .hex "#2563eb"
      else .hex "#2563eb"
    | none => .hex "#2563eb"
  let text_color := contrastColorV (categoryColorRaw item)
  let box_x := right_section_x + 0.05 * inch
  let cta_y := cta_box.y + cta_box.height - cta_box.padding - 8
  [.roundRect box_x cta_box.y cta_box.width cta_box.height 3 0 1 (some bg),
   .centredText "Scan to notify Logistics"
     (right_section_x + right_section_width / 2) cta_y text_color,
   .centredText "it's time to reorder me!"
     (right_section_x + right_section_width / 2) (cta_y - cta_box.line_height)
     text_color]

/-- `_draw_category_section`: bottom-left category label, colored with
the category color when the contrast rule judges it dark (and `HexColor`
accepts it), gray otherwise. -/
def draw_category_section (collab : Collaborators) (item : InventoryItem)
    (inner_x inner_y : ℚ) : List DrawCmd :=
  match item.category with
  | none => []
  | some c =>
    let category_color := categoryColorRaw item
    let is_light := get_contrast_text_color category_color = .black
    let fill : ColorV :=
      if ¬is_light ∧ c.color ≠ "" ∧ pyStrip c.color ≠ "" then
        if collab.hexColorOk (pyStrip c.color) then .hex (pyStrip c.color)
        else .gray
      else .gray
    [.categoryText ("Category: " ++ c.name) inner_x (inner_y + 0.05 * inch)
      fill]

/-- Stat lines built by `_draw_left_section`. -/
def infoLines (item : InventoryItem) : List String :=
  ["Target: " ++ pluralize (calculate_desired_stock item) "unit",
   "Reorder: " ++ pluralize item.reorder_quantity "unit"] ++
  (match item.average_lead_time with
   | some n => if n ≠ 0 then ["Lead: " ++ pluralize n "day"] else []
   | none => [])

/-- `_draw_left_section`: the stat text block, then the product photo
scaled by `_draw_product_image` when the item has an existing image
file. -/
def draw_left_section (collab : Collaborators) (item : InventoryItem)
    (left_section_x left_section_width current_y inner_y : ℚ) :
    List DrawCmd :=
  let info_y := current_y - 0.1 * inch
  let textCmds :=
    (draw_info_lines collab.textWidth (infoLines item) info_y
      (left_section_width - 0.1 * inch)).map
      (fun p => DrawCmd.textCmd p.1 left_section_x p.2)
  let info_lines_height := (infoLines item).length * highlightLeading
  let image_y_start := info_y - info_lines_height - 0.1 * inch
  let imageCmds :=
    match item.image with
    | some photo =>
      match draw_product_image left_section_x left_section_width
        image_y_start inner_y photo.width photo.height with
      | some r => [DrawCmd.imageCmd photo.path r.x r.y r.w r.h]
      | none => []
    | none => []
  textCmds ++ imageCmds

/-- `_draw_right_section`. -/
def draw_right_section (collab : Collaborators) (base_url : String)
    (item : InventoryItem) (right_section_x right_section_width
    current_y inner_y : ℚ) : List DrawCmd :=
  let dims := calculate_cta_dimensions item.category.isSome
    right_section_width current_y inner_y
  draw_qr_code_with_frame collab base_url item right_section_x
    right_section_width dims.1 ++
  draw_cta_box collab item right_section_x right_section_width dims.2

/-- `_draw_detailed_card`. -/
def draw_detailed_card (collab : Collaborators) (base_url : String)
    (item : InventoryItem) (origin_x origin_y : ℚ) : List DrawCmd :=
  let inner_x := origin_x + avery5388.cardPadding
  let inner_y := origin_y + avery5388.cardPadding
  let left_section_width := avery5388.cardWidth * 0.6
  let right_section_width := avery5388.cardWidth * 0.4
  let title_height := collab.titleHeight item.name
  let current_y := titleSectionEndY origin_y title_height
  [DrawCmd.paragraphCmd item.name inner_x
    (origin_y + avery5388.cardHeight - avery5388.cardPadding - title_height)] ++
  draw_left_section collab item inner_x left_section_width current_y inner_y ++
  draw_right_section collab base_url item (inner_x + left_section_width)
    right_section_width current_y inner_y ++
  draw_category_section collab item inner_x inner_y

/-- `_draw_card`: rounded border then the blank or detailed layout,
depending on the instance's current `blank_cards` flag. -/
def draw_card (collab : Collaborators) (st : RendererState)
    (item : InventoryItem) (origin : ℚ × ℚ) : List DrawCmd :=
  DrawCmd.roundRect origin.1 origin.2 avery5388.cardWidth
      avery5388.cardHeight 12 1 0 none ::
    (if st.blank_cards then draw_blank_card st.base_url item origin.1 origin.2
     else draw_detailed_card collab st.base_url item origin.1 origin.2)

/-- `_draw_page`: up to three cards at the three fixed slots. -/
def draw_page (collab : Collaborators) (st : RendererState)
    (page_items : List InventoryItem) : List DrawCmd :=
  (((page_items.take 3).enum).map
    (fun p => draw_card collab st p.2 (avery5388.cardPosition p.1))).flatten

/-- `_render_to_canvas`: one page per chunk of three items. -/
def render_to_canvas (collab : Collaborators) (st : RendererState)
    (items : List InventoryItem) : List (List DrawCmd) :=
  (chunk items 3).map (draw_page collab st)

/-- `render_preview`: reassigns the instance flag, then renders the
single item.  Returns the new instance state and the pages drawn. -/
def render_preview (collab : Collaborators) (st : RendererState)
    (item : InventoryItem) (blank_card : Bool := false) :
    RendererState × List (List DrawCmd) :=
  let st2 := { st with blank_cards := blank_card }
  (st2, render_to_canvas collab st2 [item])

/-- `render_to_bytes`: reassigns the instance flag, then renders all
items (no emptiness check; an empty sequence yields a document with no
content pages). -/
def render_to_bytes (collab : Collaborators) (st : RendererState)
    (items : List InventoryItem) (blank_cards : Bool := false) :
    RendererState × List (List DrawCmd) :=
  let st2 := { st with blank_cards := blank_cards }
  (st2, render_to_canvas collab st2 items)

/-- `render_batch_to_storage`: raises `ValueError` on an empty sequence,
then reassigns the flag and delegates to `render_to_bytes(items)` —
passing no `blank_cards` argument, so that call's default `False` applies.
(Filename normalization and blob storage are external collaborators and
not modelled.) -/
def render_batch_to_storage (collab : Collaborators) (st : RendererState)
    (items : List InventoryItem) (blank_cards : Bool := false) :
    Except String (RendererState × List (List DrawCmd)) :=
  if items = [] then
    .error "At least one item is required to render index cards."
  else
    let st2 := { st with blank_cards := blank_cards }
    .ok (render_to_bytes collab st2 items)

theorem chunk_seven {α : Type} (a b c d e f g : α) :
    chunk [a, b, c, d, e, f, g] 3 = [[a, b, c], [d, e, f], [g]] := by
  unfold chunk
  norm_num
  rfl

/-- Concrete collaborator bundle for counterexamples. -/
def trivialCollab : Collaborators :=
  { titleHeight := fun _ => 0
    textWidth := fun _ => 0
    hexColorOk := fun _ => false }

/-- C1: rendering is a pure, deterministic function of its inputs.
Calling an entry point twice on the same renderer instance with
identical arguments yields identical draw-command output (the state left
by the first call does not change the second call's output), and the
output does not depend on the instance's incoming `blank_cards` flag at
all — only on the base URL, the items, the call's own variant argument,
and the deterministic collaborators. -/
theorem C1_render_deterministic (collab : Collaborators)
    (st : RendererState) (item : InventoryItem)
    (items : List InventoryItem) (blank : Bool) :
    ((render_preview collab
        (render_preview collab st item blank).1 item blank).2 =
      (render_preview collab st item blank).2) ∧
    ((render_to_bytes collab
        (render_to_bytes collab st items blank).1 items blank).2 =
      (render_to_bytes collab st items blank).2) ∧
    (∀ f1 f2 : Bool,
      (render_to_bytes collab ⟨st.base_url, f1⟩ items blank).2 =
        (render_to_bytes collab ⟨st.base_url, f2⟩ items blank).2) ∧
    (∀ f1 f2 : Bool,
      (render_preview collab ⟨st.base_url, f1⟩ item blank).2 =
        (render_preview collab ⟨st.base_url, f2⟩ item blank).2) :=
  ⟨rfl, rfl, fun _ _ => rfl, fun _ _ => rfl⟩

/-- C2 counterexample: the claim fails for `render_to_bytes`.  On an
empty item sequence it raises nothing and returns a document with no
content pages (only `render_batch_to_storage` performs the emptiness
check). -/
theorem C2_empty_not_rejected_counterexample :
    render_to_bytes trivialCollab (init "http://localhost:3000") [] =
      (init "http://localhost:3000", []) ∧
    render_batch_to_storage trivialCollab (init "http://localhost:3000") [] =
      .error "At least one item is required to render index cards." :=
  ⟨rfl, rfl⟩

/-- C2 (amended): only `render_batch_to_storage` rejects an empty item
sequence (with a `ValueError`, before any drawing); `render_to_bytes`
performs no emptiness check and instead emits a zero-page document. -/
theorem C2_empty_items_amended (collab : Collaborators)
    (st : RendererState) (blank : Bool) :
    render_batch_to_storage collab st [] blank =
      .error "At least one item is required to render index cards." ∧
    (render_to_bytes collab st [] blank).2 = [] :=
  ⟨rfl, rfl⟩

/-- C7: the rendering pipeline partitions items into consecutive chunks
of three (cardsPerPage) in input order — the chunks concatenate back to
the input, every page except possibly the last holds exactly three
cards, no page is empty or holds more than three — and seven items
produce exactly three pages holding the first three, the next three, and
the last item, in input order. -/
theorem C7_page_partition (collab : Collaborators) (st : RendererState)
    (items : List InventoryItem) :
    ((render_to_bytes collab st items).2 =
      (chunk items 3).map (draw_page collab ⟨st.base_url, false⟩)) ∧
    (chunk items 3).flatten = items ∧
    (∀ c ∈ (chunk items 3).dropLast, c.length = 3) ∧
    (∀ c ∈ chunk items 3, c ≠ [] ∧ c.length ≤ 3) ∧
    (∀ a b c d e f g : InventoryItem,
      (render_to_bytes collab st [a, b, c, d, e, f, g]).2 =
        [draw_page collab ⟨st.base_url, false⟩ [a, b, c],
         draw_page collab ⟨st.base_url, false⟩ [d, e, f],
         draw_page collab ⟨st.base_url, false⟩ [g]]) :=
  ⟨rfl, chunk_flatten 3 (by norm_num) items,
   chunk_dropLast_full 3 (by norm_num) items,
   fun c hc => chunk_mem_le 3 (by norm_num) items.length items le_rfl c hc,
   fun a b c d e f g => by
    show (chunk [a, b, c, d, e, f, g] 3).map
        (draw_page collab ⟨st.base_url, false⟩) = _
    rw [chunk_seven]
    rfl⟩

/-- C10: every public render entry point overwrites the instance's
`blank_cards` flag with its own blank-card argument (default `False`)
before rendering, so the constructor's `blank_cards` value never
influences any public render call's output; in particular a renderer
constructed with `blank_cards = True` still renders DETAILED cards when
`render_to_bytes(items)` is called without an explicit argument, and
`render_batch_to_storage` likewise renders through
`render_to_bytes(items)`'s default. -/
theorem C10_blank_flag_overwritten (collab : Collaborators)
    (base : String) (flag blank : Bool) (item : InventoryItem)
    (items : List InventoryItem) :
    (render_preview collab (init base flag) item blank).1.blank_cards = blank ∧
    (render_to_bytes collab (init base flag) items blank).1.blank_cards = blank ∧
    ((render_to_bytes collab (init base flag) items blank).2 =
      (render_to_bytes collab (init base false) items blank).2) ∧
    ((render_preview collab (init base flag) item blank).2 =
      (render_preview collab (init base false) item blank).2) ∧
    ((render_to_bytes collab (init base true) items).2 =
      (chunk items 3).map (draw_page collab (init base false))) ∧
    (∀ origin : ℚ × ℚ,
      draw_card collab (init base false) item origin =
        DrawCmd.roundRect origin.1 origin.2 avery5388.cardWidth
            avery5388.cardHeight 12 1 0 none ::
          draw_detailed_card collab base item origin.1 origin.2) ∧
    (render_batch_to_storage collab (init base flag) items blank =
      if items = [] then
        .error "At least one item is required to render index cards."
      else
        .ok (init base false,
          (chunk items 3).map (draw_page collab (init base false)))) :=
  ⟨rfl, rfl, rfl, rfl, rfl, fun _ => rfl, rfl⟩

end IndexCards
